import Mathlib

set_option linter.unusedVariables false

/- =====================================================================
   Shallow embedding of `skfda/ml/_neighbors_base.py`.

   Functional data in discretized (grid) form is modelled after
   `_to_multivariate`: each sample is the flat vector of its values at the
   grid points, with rational numbers standing for the machine floats.
   ===================================================================== -/

/-- One functional datum in discretized form, flattened to the vector of its
values at the grid points, as `_to_multivariate` produces it. -/
abbrev Sample : Type := List ℚ

/-- A collection of functional data samples (rows), flattened grid form. -/
abbrev FGrid : Type := List Sample

/-- Value level of `NeighborsRegressorMixin._distance_weights`: if any distance
is exactly zero, zero entries become 1 and nonzero entries become 0; otherwise
the reciprocal of each distance is taken. -/
def distance_weights (distance : List ℚ) : List ℚ :=
  if distance.any (fun x => x == 0) then
    distance.map (fun x => if x == 0 then 1 else 0)
  else
    distance.map (fun x => 1 / x)

/-- Elementwise sum of the rows, `np.sum(-, axis=0)` over the sample axis. -/
def vec_sum : List (List ℚ) → List ℚ
  | [] => []
  | r :: rs => rs.foldl (fun acc s => acc.zipWith (· + ·) s) r

/-- The renormalization `weights /= np.sum(weights)` performed by
`NeighborsRegressorMixin._average` before the weighted sum. -/
def normalize_weights (w : List ℚ) : List ℚ :=
  w.map (fun x => x / w.sum)

/-- `NeighborsRegressorMixin._average`: plain mean over the sample axis when
`weights is None`, otherwise renormalize the weights to sum one and return
`np.sum(X * weights, axis=0)` (sample `i` scaled by the `i`-th weight). -/
def average (X : List (List ℚ)) (weights : Option (List ℚ)) : List ℚ :=
  match weights with
  | none => (vec_sum X).map (fun x => x / (X.length : ℚ))
  | some w =>
      let wn := normalize_weights w
      vec_sum ((wn.zip X).map (fun p => p.2.map (fun x => p.1 * x)))

/-- The `weights` configuration of the estimator: the tag `"uniform"`, the tag
`"distance"`, or a user callable on the raw distance array. -/
inductive WeightsSpec where
  | uniform
  | distance
  | callable (f : List ℚ → List ℚ)

/-- `NeighborsRegressorMixin._prediction_from_neighbors`: select the weight
vector according to the `weights` configuration and average. -/
def prediction_from_neighbors (wspec : WeightsSpec) (neighbors : List (List ℚ))
    (distance : List ℚ) : List ℚ :=
  match wspec with
  | .uniform => average neighbors none
  | .distance => average neighbors (some (distance_weights distance))
  | .callable f => average neighbors (some (f distance))

/-- Fancy indexing `self._y[idx]` of the stored training responses (each
response is one functional sample in grid form). -/
def gather (y : List (List ℚ)) (idx : List Nat) : List (List ℚ) :=
  idx.map (fun j => y.getD j [])

/-- The index list `np.where([len(n) == 0 for n in neighbors])[0]` computed by
`NeighborsRegressorMixin._outlier_response`: all query positions whose
neighbor list is empty. -/
def empty_indices (neighbors : List (List Nat)) : List Nat :=
  (List.range neighbors.length).filter (fun i => (neighbors.getD i []).isEmpty)

/-- `NeighborsRegressorMixin._outlier_response`: the configured fallback
response if there is one, otherwise the error naming every sample index
whose neighbor list is empty. -/
def outlier_response (outlier : Option (List ℚ)) (neighbors : List (List Nat)) :
    Except (List Nat) (List ℚ) :=
  match outlier with
  | some r => .ok r
  | none => .error (empty_indices neighbors)

/-- The loop of `NeighborsRegressorMixin._functional_predict` over the query
samples after the first: each empty neighbor list goes through the outlier
policy, the rest get a weighted average, and `pred.concatenate(new_pred)`
appends the one-sample results in order. -/
def functional_predict_loop (outlier : Option (List ℚ)) (wspec : WeightsSpec)
    (y : List (List ℚ)) (all_neighbors : List (List Nat)) :
    List (List Nat) → List (List ℚ) → List (List ℚ) →
    Except (List Nat) (List (List ℚ))
  | [], _, acc => .ok acc
  | idx :: rest, d :: ds, acc =>
      if idx.isEmpty then
        match outlier_response outlier all_neighbors with
        | .error e => .error e
        | .ok r => functional_predict_loop outlier wspec y all_neighbors rest ds (acc ++ [r])
      else
        functional_predict_loop outlier wspec y all_neighbors rest ds
          (acc ++ [prediction_from_neighbors wspec (gather y idx) d])
  | _ :: _, [], acc => .ok acc

/-- `NeighborsRegressorMixin._functional_predict`, after the neighbor query:
given the stored responses `y` and the per-query `distances` and `neighbors`
arrays, produce the concatenated predictions or the zero-neighbor error. -/
def functional_predict (outlier : Option (List ℚ)) (wspec : WeightsSpec)
    (y : List (List ℚ)) (distances : List (List ℚ))
    (neighbors : List (List Nat)) : Except (List Nat) (List (List ℚ)) :=
  match neighbors, distances with
  | [], _ => .ok []
  | _, [] => .ok []
  | idx0 :: rest, d0 :: ds =>
      match (if idx0.isEmpty then outlier_response outlier (idx0 :: rest)
             else .ok (prediction_from_neighbors wspec (gather y idx0) d0)) with
      | .error e => .error e
      | .ok p0 => functional_predict_loop outlier wspec y (idx0 :: rest) rest ds [p0]

/-- The `metric` constructor argument: the tag `"precomputed"`, the default
tag `"l2"`, or a user-supplied functional metric (acting here on flattened
samples, since the grid reshape of `_to_multivariate_metric` is a bijection
that the flattened model composes away). -/
inductive MetricSpec where
  | precomputed
  | l2
  | callable (d : Sample → Sample → ℚ)

/-- The dispatch `l2_distance if self.metric == "l2" else self.metric` used by
`fit` and `predict`; the parameter `l2d` stands for the external
`skfda.misc.metrics.l2_distance` collaborator. The `precomputed` case is
never consulted by the code paths modelled here. -/
def eff_metric (l2d : Sample → Sample → ℚ) : MetricSpec → (Sample → Sample → ℚ)
  | .l2 => l2d
  | .callable d => d
  | .precomputed => fun _ _ => 0

/-- The metric handed to the external sklearn index at `_init_estimator` time:
the `"precomputed"` tag, the estimator's own `metric` object passed verbatim
(`multivariate_metric=True` branch), or the `_to_multivariate_metric` wrap of
the functional metric (default branch). -/
inductive IndexMetric where
  | precomputedTag
  | verbatim (m : MetricSpec)
  | wrapped (d : Sample → Sample → ℚ)

/-- The fitted state produced by `NeighborsBase.fit` that the claims inspect:
the data matrix passed to `estimator_.fit`, the metric the external index was
configured with, and the retained training data `_fit_X` (present only in the
`precompute_metric` branch). -/
structure NBState where
  indexFitMatrix : FGrid
  indexMetric : IndexMetric
  fitX : Option FGrid

/-- `np.zeros(shape=(len(X), len(X)))`. -/
def zeros_matrix (n : Nat) : FGrid :=
  List.replicate n (List.replicate n 0)

/-- `PairwiseMetric(metric)(A, B)`: the matrix of distances from each row of
`A` to each row of `B`. -/
def pairwise_matrix (d : Sample → Sample → ℚ) (A B : FGrid) : FGrid :=
  A.map (fun a => B.map (fun b => d a b))

/-- `NeighborsBase.fit`: branch on `metric == 'precomputed'`, then on
`multivariate_metric`, then on `precompute_metric`, mirroring the source.
In the `precompute_metric` branch the index is fitted in precomputed mode on
`np.zeros((len(X), len(X)))` and `_fit_X` retains a copy of `X`. -/
def neighbors_fit (l2d : Sample → Sample → ℚ)
    (precompute_metric multivariate_metric : Bool)
    (metric : MetricSpec) (X : FGrid) : NBState :=
  match metric with
  | .precomputed =>
      { indexFitMatrix := X, indexMetric := .precomputedTag, fitX := none }
  | m =>
      if multivariate_metric then
        { indexFitMatrix := X, indexMetric := .verbatim m, fitX := none }
      else if precompute_metric then
        { indexFitMatrix := zeros_matrix X.length,
          indexMetric := .precomputedTag,
          fitX := some X }
      else
        { indexFitMatrix := X, indexMetric := .wrapped (eff_metric l2d m), fitX := none }

/-- `NeighborsClassifierMixin.predict`: the matrix handed to
`estimator_.predict`. Under `precompute_metric` it is the freshly computed
pairwise distance matrix from the query samples to the retained `_fit_X`;
otherwise the flattened query data passes through unchanged. -/
def classifier_predict_input (l2d : Sample → Sample → ℚ)
    (precompute_metric : Bool) (metric : MetricSpec)
    (st : NBState) (Xq : FGrid) : FGrid :=
  if precompute_metric then
    pairwise_matrix (eff_metric l2d metric) Xq (st.fitX.getD [])
  else Xq

/-- A discretized functional response (`FDataGrid`) with scalar codomain:
`dataMatrix` plays `data_matrix[..., 0]` (n_samples rows over the grid),
and the domain/codomain dimensions are carried explicitly. -/
structure FGridR where
  dataMatrix : List (List ℚ)
  gridPoints : List ℚ
  dimDomain : Nat
  dimCodomain : Nat

/-- Elementwise subtraction of two data matrices (the `FData` subtraction
used for `u = y - pred` and `v = y - y.mean()`). -/
def mat_sub (a b : List (List ℚ)) : List (List ℚ) :=
  a.zipWith (fun r s => r.zipWith (· - ·) s) b

/-- The mean function `y.mean()`: elementwise mean over the sample axis. -/
def mean_row (m : List (List ℚ)) : List ℚ :=
  (vec_sum m).map (fun x => x / (m.length : ℚ))

/-- `np.square` applied elementwise to a data matrix. -/
def mat_square (m : List (List ℚ)) : List (List ℚ) :=
  m.map (fun r => r.map (fun x => x * x))

/-- The in-place products `data_u.T *= sample_weight` viewed by value:
row (sample) `i` is scaled by the `i`-th weight. -/
def scale_rows (w : List ℚ) (m : List (List ℚ)) : List (List ℚ) :=
  (w.zip m).map (fun p => p.2.map (fun x => p.1 * x))

/-- Composite quadrature helper: consume the remaining points two at a time,
adding a Simpson parabola term per pair of intervals and a trapezoid term for
a trailing odd interval. -/
def simps_aux : ℚ → ℚ → List (ℚ × ℚ) → ℚ
  | _, _, [] => 0
  | y0, x0, [(y1, x1)] => (x1 - x0) * (y0 + y1) / 2
  | y0, x0, (y1, _) :: (y2, x2) :: tl =>
      (x2 - x0) / 6 * (y0 + 4 * y1 + y2) + simps_aux y2 x2 tl

/-- Modelled from the spec: the numerical integration collaborator
(`scipy.integrate.simps`) is external to this repository; the spec asks for
"any 1-D quadrature rule, e.g. Simpson's", realized here as a composite
Simpson rule over the grid. -/
def simps (y x : List ℚ) : ℚ :=
  match y.zip x with
  | [] => 0
  | (y0, x0) :: tl => simps_aux y0 x0 tl

/-- `NeighborsRegressorMixin._functional_score`, with the prediction passed
in directly (the source obtains it from `self.predict(X)`): dimension check,
squared residual and squared deviation-from-mean matrices, optional
renormalized per-sample weights, sum over samples, quadrature, and
`1 - int_u / int_v`. -/
def functional_score (y predY : FGridR) (sample_weight : Option (List ℚ)) :
    Except String ℚ :=
  if y.dimCodomain ≠ 1 ∨ y.dimDomain ≠ 1 then
    .error "Score not implemented for multivariate functional data."
  else
    match sample_weight with
    | none =>
        .ok (1 - simps (vec_sum (mat_square
                   (mat_sub y.dataMatrix predY.dataMatrix))) y.gridPoints
               / simps (vec_sum (mat_square (mat_sub y.dataMatrix
                   (y.dataMatrix.map (fun _ => mean_row y.dataMatrix))))) y.gridPoints)
    | some w =>
        if w.length ≠ y.dataMatrix.length then
          .error "Must be a weight for each sample."
        else
          .ok (1 - simps (vec_sum (scale_rows (normalize_weights w) (mat_square
                     (mat_sub y.dataMatrix predY.dataMatrix)))) y.gridPoints
                 / simps (vec_sum (scale_rows (normalize_weights w) (mat_square
                     (mat_sub y.dataMatrix (y.dataMatrix.map
                       (fun _ => mean_row y.dataMatrix)))))) y.gridPoints)

/- =====================================================================
   Heap model for the aliasing behavior of `_distance_weights` (numpy
   arrays as references into a store, so that "returns the same array
   object" and "overwrites in place" are statable).
   ===================================================================== -/

/-- A store of numpy arrays; a reference is a position in the store. -/
structure Store where
  arrays : List (List ℚ)

/-- Read the array behind a reference. -/
def Store.read (s : Store) (r : Nat) : List ℚ := s.arrays.getD r []

/-- Overwrite the array behind a reference in place. -/
def Store.write (s : Store) (r : Nat) (v : List ℚ) : Store := ⟨s.arrays.set r v⟩

/-- Allocate a fresh array, returning its reference and the grown store. -/
def Store.alloc (s : Store) (v : List ℚ) : Nat × Store :=
  (s.arrays.length, ⟨s.arrays ++ [v]⟩)

/-- `NeighborsRegressorMixin._distance_weights` at the heap level: in the
tie case `weights = distance` aliases the argument and the fancy-indexed
assignments overwrite it in place, so the caller's reference is returned;
otherwise `1 / distance` allocates a fresh array. -/
def distance_weights_heap (s : Store) (r : Nat) : Nat × Store :=
  let distance := s.read r
  if distance.any (fun x => x == 0) then
    (r, s.write r (distance.map (fun x => if x == 0 then 1 else 0)))
  else
    s.alloc (distance.map (fun x => 1 / x))

/- =====================================================================
   Shallow embedding of `skfda/representation/basis/_fdatabasis.py`.

   Coefficients are IEEE-style scalars (a rational or NaN) because `isna`
   and the `np.array_equal` comparison inside `equals` are sensitive to
   NaN entries.
   ===================================================================== -/

/-- An IEEE-style scalar: a rational value or NaN. -/
inductive RVal where
  | nan
  | val (q : ℚ)
deriving DecidableEq

/-- `np.isnan` on one scalar. -/
def RVal.isNaN : RVal → Bool
  | .nan => true
  | .val _ => false

/-- IEEE elementwise equality, as numpy's `==` on floats: NaN compares
unequal to everything, including itself. -/
def ieee_eq : RVal → RVal → Bool
  | .val a, .val b => a == b
  | _, _ => false

/-- The external `Basis` collaborator, reduced to its identity-relevant data:
`n_basis` and a tag distinguishing different basis systems of equal size.
Basis equality is the external structural `==` of basis objects, which a
`copy.deepcopy` preserves. -/
structure BasisSystem where
  tag : Nat
  n_basis : Nat
deriving DecidableEq

/-- A coefficient matrix: rows are samples. The numpy arrays of the source
are rectangular; `shape1` reads the column count off the first row. -/
abbrev CoefMatrix := List (List RVal)

/-- Argument to the constructor before `np.atleast_2d`: a coefficient vector
or an already two-dimensional matrix. -/
inductive CoefInput where
  | vec (v : List RVal)
  | mat (m : CoefMatrix)

/-- `np.atleast_2d`: a vector is promoted to a one-row matrix. -/
def atleast_2d : CoefInput → CoefMatrix
  | .vec v => [v]
  | .mat m => m

/-- `shape[1]` of a rectangular coefficient matrix. -/
def shape1 (m : CoefMatrix) : Nat := (m.head?.map List.length).getD 0

/-- The data of an `FDataBasis` instance relevant to the claims: the basis
and the coefficient matrix (per-sample metadata is dropped; it is preserved
verbatim by every operation modelled here). -/
structure FDataBasisQ where
  basis : BasisSystem
  coefficients : CoefMatrix
deriving DecidableEq

/-- `FDataBasis.__init__`: promote the coefficients with `np.atleast_2d`
(`_int_to_real` is the identity on our scalars) and fail with the source's
`ValueError` message unless the column count equals `basis.n_basis`. -/
def mk_fdatabasis (basis : BasisSystem) (c : CoefInput) :
    Except String FDataBasisQ :=
  let coefficients := atleast_2d c
  if shape1 coefficients = basis.n_basis then
    .ok { basis := basis, coefficients := coefficients }
  else
    .error "The length or number of columns of coefficients has to be the same equal to the number of elements of the basis."

/-- `FDataBasis.copy` with no overrides: `copy.deepcopy` of the basis is the
same basis value and the coefficient matrix is passed through; the
constructor's validation is preserved because the column count is unchanged. -/
def fd_copy (fd : FDataBasisQ) : FDataBasisQ :=
  { basis := fd.basis, coefficients := fd.coefficients }

/-- `np.array_equal` on coefficient matrices: equal shapes and elementwise
IEEE equality (so any NaN entry makes the comparison false). -/
def array_equal (a b : CoefMatrix) : Bool :=
  a.length == b.length &&
    (a.zip b).all (fun p => p.1.length == p.2.length &&
      (p.1.zip p.2).all (fun q => ieee_eq q.1 q.2))

/-- `FDataBasis.equals`: the metadata comparison of `super().equals` holds
between an instance and its copy (metadata is dropped from the model), so
equality is basis equality together with `np.array_equal` of the
coefficient matrices. -/
def fd_equals (a b : FDataBasisQ) : Bool :=
  a.basis == b.basis && array_equal a.coefficients b.coefficients

/-- `FDataBasis.derivative` over integer orders; `rule` stands for the
external `basis._derivative_basis_and_coefs` collaborator and the positive
branch goes through the validating constructor, as in the source. -/
def derivative (rule : BasisSystem → CoefMatrix → ℤ → BasisSystem × CoefMatrix)
    (fd : FDataBasisQ) (order : ℤ) : Except String FDataBasisQ :=
  if order < 0 then .error "order only takes non-negative integer values."
  else if order = 0 then .ok (fd_copy fd)
  else
    mk_fdatabasis (rule fd.basis fd.coefficients order).1
      (.mat (rule fd.basis fd.coefficients order).2)

/-- Result of a Python binary operator: either the `NotImplemented` sentinel
(operand not handled, so the reflected operation may be tried) or a value. -/
inductive OpResult where
  | notHandled
  | handled (fd : FDataBasisQ)
deriving DecidableEq

/-- `FDataBasis.__add__` restricted to two instances: different bases return
the `NotImplemented` sentinel, identical bases delegate to the external
`basis._add_same_basis` rule (the parameter `add_rule`) and rebuild via the
copy-with-override mechanism. -/
def fd_add (add_rule : BasisSystem → CoefMatrix → CoefMatrix → BasisSystem × CoefMatrix)
    (a b : FDataBasisQ) : OpResult :=
  if a.basis ≠ b.basis then .notHandled
  else
    .handled { basis := (add_rule a.basis a.coefficients b.coefficients).1,
               coefficients := (add_rule a.basis a.coefficients b.coefficients).2 }

/-- `FDataBasis.__sub__` restricted to two instances, like `fd_add` with the
external `basis._sub_same_basis` rule. -/
def fd_sub (sub_rule : BasisSystem → CoefMatrix → CoefMatrix → BasisSystem × CoefMatrix)
    (a b : FDataBasisQ) : OpResult :=
  if a.basis ≠ b.basis then .notHandled
  else
    .handled { basis := (sub_rule a.basis a.coefficients b.coefficients).1,
               coefficients := (sub_rule a.basis a.coefficients b.coefficients).2 }

/-- `FDataBasis.to_basis`: the fast path returns `self.copy()` when the
target basis equals the current one; otherwise the grid round-trip
`self.to_grid().to_basis(basis)` runs, represented by the external
parameter `refit`. -/
def to_basis (refit : FDataBasisQ → BasisSystem → FDataBasisQ)
    (fd : FDataBasisQ) (basis : BasisSystem) : FDataBasisQ :=
  if basis = fd.basis then fd_copy fd else refit fd basis

/-- `FDataBasis.isna`: `np.all(np.isnan(coefficients), axis=1)`, one boolean
per sample, true exactly when every coefficient of the row is NaN. -/
def isna (fd : FDataBasisQ) : List Bool :=
  fd.coefficients.map (fun row => row.all RVal.isNaN)

/- =====================================================================
   Helper lemmas.
   ===================================================================== -/

/-- Summing the 0/1 tie indicator counts the zero entries. -/
theorem sum_map_tie_indicator (d : List ℚ) :
    (d.map (fun x => if x == 0 then (1 : ℚ) else 0)).sum
      = (d.countP (fun x => x == 0) : ℚ) := by
  induction d with
  | nil => simp
  | cons a tl ih =>
      simp only [List.map_cons, List.sum_cons, List.countP_cons, ih]
      by_cases h : (a == 0) = true
      · simp [h, add_comm]
      · simp [h]

/- =====================================================================
   Claim C2: the tie rule of distance weighting after renormalization.
   ===================================================================== -/

/-- C2: for `weights="distance"`, when some neighbor distance is exactly
zero, the renormalized weight vector used by `_average` gives each
zero-distance neighbor the equal positive weight `1 / (number of zeros)`
and each nonzero-distance neighbor the weight `0`; in particular on
`[0, 0, 5]` it is `[1/2, 1/2, 0]`. -/
theorem claim2_distance_tie_rule (d : List ℚ) (hz : ∃ x ∈ d, x = 0) :
    normalize_weights (distance_weights d)
      = d.map (fun x => if x == 0 then
          1 / (d.countP (fun y => y == 0) : ℚ) else 0)
    ∧ 0 < 1 / (d.countP (fun y => y == 0) : ℚ)
    ∧ normalize_weights (distance_weights [0, 0, 5]) = [1/2, 1/2, 0] := by
  obtain ⟨x0, hx0, he0⟩ := hz
  have hany : d.any (fun x => x == 0) = true := by
    rw [List.any_eq_true]
    exact ⟨x0, hx0, by simp [he0]⟩
  have hcount : 0 < d.countP (fun y => y == 0) := by
    rw [List.countP_pos_iff]
    exact ⟨x0, hx0, by simp [he0]⟩
  refine ⟨?_, ?_, ?_⟩
  · rw [distance_weights, if_pos hany, normalize_weights, List.map_map,
      sum_map_tie_indicator]
    refine List.map_congr_left (fun x _ => ?_)
    by_cases h : (x == 0) = true
    · have hx : x = 0 := by simpa using h
      simp [hx, one_div]
    · have hx : ¬ x = 0 := by simpa using h
      simp [hx]
  · have : (0 : ℚ) < (d.countP (fun y => y == 0) : ℚ) := by
      exact_mod_cast hcount
    exact one_div_pos.mpr this
  · norm_num [normalize_weights, distance_weights]

/-- Witness for C2 at the concrete distance vector `[0, 0, 5]`. -/
theorem claim2_distance_tie_rule_witness :
    (∃ x ∈ ([0, 0, 5] : List ℚ), x = 0)
    ∧ normalize_weights (distance_weights [0, 0, 5])
        = ([0, 0, 5] : List ℚ).map (fun x => if x == 0 then
            1 / (([0, 0, 5] : List ℚ).countP (fun y => y == 0) : ℚ) else 0) :=
  ⟨⟨0, by norm_num⟩,
   (claim2_distance_tie_rule [0, 0, 5] ⟨0, by norm_num⟩).1⟩

/- =====================================================================
   Claim C10: `_distance_weights` aliases and overwrites its argument
   exactly in the tie case.
   ===================================================================== -/

/-- C10: on a distance array containing a zero, `_distance_weights` returns
the very reference it was given, with the array overwritten in place (zeros
set to 1, nonzeros set to 0), losing the caller's distances; on an array
with no zero it returns a freshly allocated reciprocal array and leaves the
input array unchanged. -/
theorem claim10_distance_weights_aliasing (s : Store) (r : Nat)
    (hr : r < s.arrays.length) :
    ((∃ x ∈ s.read r, x = 0) →
      distance_weights_heap s r
        = (r, s.write r ((s.read r).map (fun x => if x == 0 then 1 else 0))))
    ∧ ((∀ x ∈ s.read r, x ≠ 0) →
      (distance_weights_heap s r).1 = s.arrays.length
      ∧ (distance_weights_heap s r).1 ≠ r
      ∧ (distance_weights_heap s r).2.read r = s.read r
      ∧ (distance_weights_heap s r).2.read s.arrays.length
          = (s.read r).map (fun x => 1 / x)) := by
  constructor
  · intro hz
    obtain ⟨x0, hx0, he0⟩ := hz
    have hany : (s.read r).any (fun x => x == 0) = true := by
      rw [List.any_eq_true]
      exact ⟨x0, hx0, by simp [he0]⟩
    rw [distance_weights_heap]
    simp only [hany, if_true]
  · intro hnz
    have hany : (s.read r).any (fun x => x == 0) = false := by
      rw [List.any_eq_false]
      intro x hx
      simp [hnz x hx]
    rw [distance_weights_heap]
    simp only [hany, Bool.false_eq_true, if_false]
    refine ⟨rfl, hr.ne', ?_, ?_⟩
    · show (⟨s.arrays ++ [(s.read r).map (fun x => 1 / x)]⟩ : Store).read r = s.read r
      show (s.arrays ++ [(s.read r).map (fun x => 1 / x)]).getD r [] = s.arrays.getD r []
      exact List.getD_append _ _ _ _ hr
    · show (s.arrays ++ [(s.read r).map (fun x => 1 / x)]).getD s.arrays.length []
        = (s.read r).map (fun x => 1 / x)
      rw [List.getD_append_right _ _ _ _ le_rfl]
      simp

/-- Witness for C10 on the store holding `[0, 2]` at reference 0 and
`[3, 4]` at reference 1: the tie case overwrites in place at reference 0,
the reciprocal case allocates reference 2 and leaves reference 1 intact. -/
theorem claim10_distance_weights_aliasing_witness :
    (distance_weights_heap ⟨[[0, 2], [3, 4]]⟩ 0
      = (0, Store.write ⟨[[0, 2], [3, 4]]⟩ 0
          ((Store.read ⟨[[0, 2], [3, 4]]⟩ 0).map (fun x => if x == 0 then 1 else 0))))
    ∧ ((distance_weights_heap ⟨[[0, 2], [3, 4]]⟩ 1).1 = 2
      ∧ (distance_weights_heap ⟨[[0, 2], [3, 4]]⟩ 1).1 ≠ 1
      ∧ (distance_weights_heap ⟨[[0, 2], [3, 4]]⟩ 1).2.read 1
          = Store.read ⟨[[0, 2], [3, 4]]⟩ 1
      ∧ (distance_weights_heap ⟨[[0, 2], [3, 4]]⟩ 1).2.read 2
          = (Store.read ⟨[[0, 2], [3, 4]]⟩ 1).map (fun x => 1 / x)) :=
  ⟨(claim10_distance_weights_aliasing ⟨[[0, 2], [3, 4]]⟩ 0 (by norm_num)).1
      ⟨0, by norm_num [Store.read]⟩,
   (claim10_distance_weights_aliasing ⟨[[0, 2], [3, 4]]⟩ 1 (by norm_num)).2
      (by norm_num [Store.read])⟩

/- =====================================================================
   Claim C3: zero-neighbor policy of functional regression predict.
   ===================================================================== -/

/-- With a fallback response configured, the prediction loop appends, in
input order, the fallback for empty neighbor lists and the weighted average
otherwise. -/
theorem fploop_ok_of_fallback (r : List ℚ) (w : WeightsSpec)
    (y : List (List ℚ)) (nb : List (List Nat)) :
    ∀ (rest : List (List Nat)) (ds : List (List ℚ)) (acc : List (List ℚ)),
      functional_predict_loop (some r) w y nb rest ds acc
        = .ok (acc ++ (rest.zip ds).map
            (fun p => if p.1.isEmpty then r
                      else prediction_from_neighbors w (gather y p.1) p.2)) := by
  intro rest
  induction rest with
  | nil => intro ds acc; simp [functional_predict_loop]
  | cons idx rest ih =>
      intro ds acc
      cases ds with
      | nil => simp [functional_predict_loop]
      | cons d ds =>
          by_cases h : idx.isEmpty
          · have hnil : idx = [] := List.isEmpty_iff.mp h
            simp [functional_predict_loop, h, hnil, outlier_response, ih]
          · have hne : ¬ idx = [] := by simpa [List.isEmpty_iff] using h
            simp [functional_predict_loop, h, hne, ih]

/-- Without a fallback, the prediction loop fails at the first empty
neighbor list, with the error naming all empty positions of the full
neighbor array. -/
theorem fploop_error_of_no_fallback (w : WeightsSpec)
    (y : List (List ℚ)) (nb : List (List Nat)) :
    ∀ (rest : List (List Nat)) (ds : List (List ℚ)) (acc : List (List ℚ)),
      rest.length = ds.length → (∃ idx ∈ rest, idx = []) →
      functional_predict_loop none w y nb rest ds acc
        = .error (empty_indices nb) := by
  intro rest
  induction rest with
  | nil => intro ds acc _ hz; simp at hz
  | cons idx rest ih =>
      intro ds acc hlen hz
      cases ds with
      | nil => simp at hlen
      | cons d ds =>
          by_cases h : idx.isEmpty
          · simp [functional_predict_loop, h, outlier_response]
          · have hz' : ∃ i ∈ rest, i = [] := by
              obtain ⟨i, hi, he⟩ := hz
              rcases List.mem_cons.mp hi with rfl | hmem
              · exact absurd (by simp [he]) h
              · exact ⟨i, hmem, he⟩
            simp only [functional_predict_loop, h, Bool.false_eq_true, if_false]
            exact ih ds _ (by simpa using hlen) hz'

/-- C3: in functional regression predict, if some test sample has zero
neighbors and no fallback response is configured, prediction fails with the
error naming exactly the sample indices whose neighbor list is empty; with
a fallback configured, each zero-neighbor sample receives the fallback and
each other sample the weighted average of its neighbors' responses,
concatenated in input order. -/
theorem claim3_zero_neighbor_policy (w : WeightsSpec) (y : List (List ℚ))
    (distances : List (List ℚ)) (neighbors : List (List Nat))
    (hlen : neighbors.length = distances.length) :
    ((∃ idx ∈ neighbors, idx = []) →
      functional_predict none w y distances neighbors
        = .error (empty_indices neighbors)
      ∧ ∀ i, i ∈ empty_indices neighbors ↔
          i < neighbors.length ∧ neighbors.getD i [] = [])
    ∧ (∀ r, functional_predict (some r) w y distances neighbors
        = .ok ((neighbors.zip distances).map
            (fun p => if p.1.isEmpty then r
                      else prediction_from_neighbors w (gather y p.1) p.2))) := by
  constructor
  · intro hz
    constructor
    · cases neighbors with
      | nil => simp at hz
      | cons idx0 rest =>
          cases distances with
          | nil => simp at hlen
          | cons d0 ds =>
              by_cases h0 : idx0.isEmpty
              · simp [functional_predict, h0, outlier_response]
              · have hz' : ∃ i ∈ rest, i = [] := by
                  obtain ⟨i, hi, he⟩ := hz
                  rcases List.mem_cons.mp hi with rfl | hmem
                  · exact absurd (by simp [he]) h0
                  · exact ⟨i, hmem, he⟩
                simp only [functional_predict, h0, Bool.false_eq_true, if_false]
                exact fploop_error_of_no_fallback w y _ rest ds _
                  (by simpa using hlen) hz'
    · intro i
      simp [empty_indices, List.mem_filter, List.mem_range, List.isEmpty_iff]
  · intro r
    cases neighbors with
    | nil => simp [functional_predict]
    | cons idx0 rest =>
        cases distances with
        | nil => simp [functional_predict]
        | cons d0 ds =>
            by_cases h0 : idx0.isEmpty
            · have hnil : idx0 = [] := List.isEmpty_iff.mp h0
              simp [functional_predict, h0, hnil, outlier_response,
                fploop_ok_of_fallback]
            · have hne : ¬ idx0 = [] := by simpa [List.isEmpty_iff] using h0
              simp [functional_predict, h0, hne, fploop_ok_of_fallback]

/-- Witness for C3 on two query samples where the second has no neighbors:
without a fallback the prediction is the error naming sample 1; with the
fallback `[9]` the second prediction is the fallback. -/
theorem claim3_zero_neighbor_policy_witness :
    (∃ idx ∈ [[0], ([] : List Nat)], idx = [])
    ∧ empty_indices [[0], []] = [1]
    ∧ functional_predict none WeightsSpec.uniform [[1, 2]] [[1], []] [[0], []]
        = .error (empty_indices [[0], []])
    ∧ functional_predict (some [9]) WeightsSpec.uniform [[1, 2]] [[1], []] [[0], []]
        = .ok ((([[0], []] : List (List Nat)).zip [[1], ([] : List ℚ)]).map
            (fun p => if p.1.isEmpty then [9]
                      else prediction_from_neighbors WeightsSpec.uniform
                        (gather [[1, 2]] p.1) p.2)) :=
  ⟨⟨[], by simp⟩,
   by decide,
   ((claim3_zero_neighbor_policy WeightsSpec.uniform [[1, 2]] [[1], []] [[0], []]
      (by rfl)).1 ⟨[], by simp⟩).1,
   (claim3_zero_neighbor_policy WeightsSpec.uniform [[1, 2]] [[1], []] [[0], []]
      (by rfl)).2 [9]⟩

/- =====================================================================
   Claim C1: the precompute_metric fit path. The claim says fit computes
   and caches the full training distance matrix; the source instead caches
   a copy of the training data (`_fit_X = X.copy()`) and fits the index on
   an all-zero placeholder.
   ===================================================================== -/

/-- Counterexample to C1 as stated: with the user-supplied metric
`d(a, b) = (a0 - b0)^2` on the two training samples `[[0], [1]]`, the
training distance matrix is `[[0, 1], [1, 0]]`, but after `fit` with
`precompute_metric=True` neither the matrix handed to the external index
(all zeros) nor the cached `_fit_X` (the training data itself) equals that
distance matrix: no training distance matrix is computed or cached. -/
theorem claim1_counterexample :
    (neighbors_fit (fun a b => (a.headD 0 - b.headD 0) * (a.headD 0 - b.headD 0))
        true false
        (.callable (fun a b => (a.headD 0 - b.headD 0) * (a.headD 0 - b.headD 0)))
        [[0], [1]]).indexFitMatrix
      ≠ pairwise_matrix
          (fun a b => (a.headD 0 - b.headD 0) * (a.headD 0 - b.headD 0))
          [[0], [1]] [[0], [1]]
    ∧ (neighbors_fit (fun a b => (a.headD 0 - b.headD 0) * (a.headD 0 - b.headD 0))
        true false
        (.callable (fun a b => (a.headD 0 - b.headD 0) * (a.headD 0 - b.headD 0)))
        [[0], [1]]).fitX = some [[0], [1]]
    ∧ ([[0], [1]] : FGrid)
        ≠ pairwise_matrix
            (fun a b => (a.headD 0 - b.headD 0) * (a.headD 0 - b.headD 0))
            [[0], [1]] [[0], [1]] := by
  refine ⟨?_, rfl, ?_⟩
  · norm_num [neighbors_fit, zeros_matrix, pairwise_matrix, List.replicate]
  · norm_num [pairwise_matrix]

/-- C1 amended: with `precompute_metric=True` and a metric other than the
`'precomputed'` tag, `fit` retains a copy of the training functional data
(not a distance matrix), fits the external index in precomputed mode over
the all-zero placeholder of shape `(n_samples, n_samples)`, and
classification `predict` computes the pairwise query-to-training distances
freshly against the retained training data under the chosen functional
metric (`l2` default or user-supplied). -/
theorem claim1_precompute_fit (l2d : Sample → Sample → ℚ)
    (metric : MetricSpec) (X Xq : FGrid)
    (hm : metric ≠ MetricSpec.precomputed) :
    (neighbors_fit l2d true false metric X).indexFitMatrix
        = zeros_matrix X.length
    ∧ (neighbors_fit l2d true false metric X).indexMetric
        = IndexMetric.precomputedTag
    ∧ (neighbors_fit l2d true false metric X).fitX = some X
    ∧ classifier_predict_input l2d true metric
        (neighbors_fit l2d true false metric X) Xq
        = pairwise_matrix (eff_metric l2d metric) Xq X := by
  cases metric with
  | precomputed => exact absurd rfl hm
  | l2 => exact ⟨rfl, rfl, rfl, rfl⟩
  | callable d => exact ⟨rfl, rfl, rfl, rfl⟩

/-- Witness for C1 amended with the default `l2` metric on one training
sample and one query sample. -/
theorem claim1_precompute_fit_witness :
    (MetricSpec.l2 ≠ MetricSpec.precomputed)
    ∧ ((neighbors_fit (fun _ _ => 3) true false MetricSpec.l2 [[5]]).indexFitMatrix
          = zeros_matrix 1
      ∧ (neighbors_fit (fun _ _ => 3) true false MetricSpec.l2 [[5]]).indexMetric
          = IndexMetric.precomputedTag
      ∧ (neighbors_fit (fun _ _ => 3) true false MetricSpec.l2 [[5]]).fitX
          = some [[5]]
      ∧ classifier_predict_input (fun _ _ => 3) true MetricSpec.l2
          (neighbors_fit (fun _ _ => 3) true false MetricSpec.l2 [[5]]) [[7]]
          = pairwise_matrix (eff_metric (fun _ _ => 3) MetricSpec.l2) [[7]] [[5]]) :=
  ⟨fun h => MetricSpec.noConfusion h,
   by
    have h := claim1_precompute_fit (fun _ _ => 3) MetricSpec.l2 [[5]] [[7]]
      (fun h => MetricSpec.noConfusion h)
    simpa using h⟩

/- =====================================================================
   Claim C5: the functional R^2 score.
   ===================================================================== -/

/-- Adding two all-zero vectors elementwise gives an all-zero vector. -/
theorem zipWith_add_all_zero (a : List ℚ) :
    ∀ (b : List ℚ), (∀ v ∈ a, v = 0) → (∀ v ∈ b, v = 0) →
      ∀ v ∈ a.zipWith (· + ·) b, v = 0 := by
  induction a with
  | nil => intro b _ _ v hv; simp at hv
  | cons x xs ih =>
      intro b ha hb v hv
      cases b with
      | nil => simp at hv
      | cons z zs =>
          rcases List.mem_cons.mp hv with rfl | hmem
          · simp [ha x (by simp), hb z (by simp)]
          · exact ih zs (fun u hu => ha u (List.mem_cons_of_mem _ hu))
              (fun u hu => hb u (List.mem_cons_of_mem _ hu)) v hmem

/-- Folding elementwise addition over all-zero rows keeps an all-zero
accumulator all zero. -/
theorem foldl_add_all_zero :
    ∀ (rs : List (List ℚ)) (acc : List ℚ),
      (∀ v ∈ acc, v = 0) → (∀ row ∈ rs, ∀ v ∈ row, v = 0) →
      ∀ v ∈ rs.foldl (fun a s => a.zipWith (· + ·) s) acc, v = 0 := by
  intro rs
  induction rs with
  | nil => intro acc ha _ v hv; exact ha v hv
  | cons r rest ih =>
      intro acc ha hrows v hv
      exact ih (acc.zipWith (· + ·) r)
        (zipWith_add_all_zero acc r ha (hrows r (by simp)))
        (fun row hrow => hrows row (List.mem_cons_of_mem _ hrow)) v hv

/-- The sample-axis sum of an all-zero matrix is all zero. -/
theorem vec_sum_all_zero (m : List (List ℚ))
    (h : ∀ row ∈ m, ∀ v ∈ row, v = 0) : ∀ v ∈ vec_sum m, v = 0 := by
  cases m with
  | nil => intro v hv; simp [vec_sum] at hv
  | cons r rs =>
      intro v hv
      exact foldl_add_all_zero rs r (h r (by simp))
        (fun row hrow => h row (List.mem_cons_of_mem _ hrow)) v hv

/-- Subtracting a data matrix from itself gives an all-zero matrix. -/
theorem mat_sub_self_all_zero (m : List (List ℚ)) :
    ∀ row ∈ mat_sub m m, ∀ v ∈ row, v = 0 := by
  intro row hrow v hv
  rw [mat_sub, List.zipWith_same] at hrow
  obtain ⟨r, hr, rfl⟩ := List.mem_map.mp hrow
  rw [List.zipWith_same] at hv
  obtain ⟨a, ha, rfl⟩ := List.mem_map.mp hv
  exact sub_self a

/-- Squaring preserves all-zero matrices. -/
theorem mat_square_all_zero (m : List (List ℚ))
    (h : ∀ row ∈ m, ∀ v ∈ row, v = 0) :
    ∀ row ∈ mat_square m, ∀ v ∈ row, v = 0 := by
  intro row hrow v hv
  rw [mat_square] at hrow
  obtain ⟨r, hr, rfl⟩ := List.mem_map.mp hrow
  obtain ⟨a, ha, rfl⟩ := List.mem_map.mp hv
  rw [h r hr a ha, mul_zero]

/-- The quadrature helper vanishes on all-zero values. -/
theorem simps_aux_all_zero :
    ∀ (x0 : ℚ) (l : List (ℚ × ℚ)), (∀ p ∈ l, p.1 = 0) →
      simps_aux 0 x0 l = 0
  | x0, [], h => by simp [simps_aux]
  | x0, [(y1, x1)], h => by
      have h1 : y1 = 0 := h (y1, x1) (by simp)
      simp [simps_aux, h1]
  | x0, (y1, xx) :: (y2, x2) :: tl, h => by
      have h1 : y1 = 0 := h (y1, xx) (by simp)
      have h2 : y2 = 0 := h (y2, x2) (by simp)
      have ih := simps_aux_all_zero x2 tl
        (fun p hp => h p (List.mem_cons_of_mem _ (List.mem_cons_of_mem _ hp)))
      simp [simps_aux, h1, h2, ih]

/-- The quadrature of the zero function is zero. -/
theorem simps_all_zero (yv xv : List ℚ) (h : ∀ v ∈ yv, v = 0) :
    simps yv xv = 0 := by
  rcases hz : yv.zip xv with _ | ⟨⟨y0, x0⟩, tl⟩
  · simp [simps, hz]
  · have hy0 : y0 = 0 := h y0 (List.of_mem_zip (hz ▸ List.mem_cons_self _ _)).1
    have htl : ∀ p ∈ tl, Prod.fst p = 0 := by
      intro p hp
      exact h p.1 (List.of_mem_zip (hz ▸ List.mem_cons_of_mem _ hp)).1
    rw [simps, hz, hy0]
    exact simps_aux_all_zero x0 tl htl

/-- Unweighted valid-dimension branch of `functional_score`, spelled out. -/
theorem functional_score_none_eq (y p : FGridR)
    (h1 : y.dimCodomain = 1) (h2 : y.dimDomain = 1) :
    functional_score y p none
      = .ok (1 -
          simps (vec_sum (mat_square
            (mat_sub y.dataMatrix p.dataMatrix))) y.gridPoints
        / simps (vec_sum (mat_square (mat_sub y.dataMatrix
            (y.dataMatrix.map (fun _ => mean_row y.dataMatrix))))) y.gridPoints) := by
  rw [functional_score.eq_def, if_neg (by simp [h1, h2])]

/-- C5: the functional score fails with the invalid-argument error whenever
the true response has domain or codomain dimension other than 1; on a valid
1-D response it returns one minus the quotient of the integrated summed
squared residual by the integrated summed squared deviation from the mean;
and when the prediction equals the targets (zero residual integral, with a
nondegenerate deviation integral) the score is exactly 1. -/
theorem claim5_functional_score (y p : FGridR) (sw : Option (List ℚ)) :
    (y.dimCodomain ≠ 1 ∨ y.dimDomain ≠ 1 →
      functional_score y p sw
        = .error "Score not implemented for multivariate functional data.")
    ∧ (y.dimCodomain = 1 → y.dimDomain = 1 →
      functional_score y p none
        = .ok (1 -
            simps (vec_sum (mat_square
              (mat_sub y.dataMatrix p.dataMatrix))) y.gridPoints
          / simps (vec_sum (mat_square (mat_sub y.dataMatrix
              (y.dataMatrix.map (fun _ => mean_row y.dataMatrix))))) y.gridPoints))
    ∧ (y.dimCodomain = 1 → y.dimDomain = 1 →
      simps (vec_sum (mat_square (mat_sub y.dataMatrix
          (y.dataMatrix.map (fun _ => mean_row y.dataMatrix))))) y.gridPoints ≠ 0 →
      functional_score y y none = .ok 1) := by
  refine ⟨?_, ?_, ?_⟩
  · intro h
    rw [functional_score.eq_def, if_pos h]
  · intro h1 h2
    exact functional_score_none_eq y p h1 h2
  · intro h1 h2 hv
    have hu : simps (vec_sum (mat_square
        (mat_sub y.dataMatrix y.dataMatrix))) y.gridPoints = 0 :=
      simps_all_zero _ _
        (vec_sum_all_zero _ (mat_square_all_zero _ (mat_sub_self_all_zero _)))
    rw [functional_score_none_eq y y h1 h2, hu, zero_div, sub_zero]

/-- Witness for C5: a two-dimensional-domain response is rejected, and on
the valid response with samples `[0,0,0]` and `[2,2,2]` over the grid
`[0,1,2]` the deviation integral is 4 and the self-prediction score is 1. -/
theorem claim5_functional_score_witness :
    ((2 : Nat) ≠ 1 ∨ (1 : Nat) ≠ 1)
    ∧ functional_score ⟨[[1]], [0], 1, 2⟩ ⟨[[1]], [0], 1, 2⟩ none
        = .error "Score not implemented for multivariate functional data."
    ∧ simps (vec_sum (mat_square (mat_sub [[0,0,0],[2,2,2]]
        (([[0,0,0],[2,2,2]] : List (List ℚ)).map
          (fun _ => mean_row [[0,0,0],[2,2,2]]))))) [0,1,2] = 4
    ∧ functional_score ⟨[[0,0,0],[2,2,2]], [0,1,2], 1, 1⟩
        ⟨[[0,0,0],[2,2,2]], [0,1,2], 1, 1⟩ none = .ok 1 :=
  ⟨Or.inl (by norm_num),
   (claim5_functional_score ⟨[[1]], [0], 1, 2⟩ ⟨[[1]], [0], 1, 2⟩ none).1
     (Or.inl (by norm_num)),
   by norm_num [simps, simps_aux, vec_sum, mat_square, mat_sub, mean_row],
   (claim5_functional_score ⟨[[0,0,0],[2,2,2]], [0,1,2], 1, 1⟩
       ⟨[[0,0,0],[2,2,2]], [0,1,2], 1, 1⟩ none).2.2 rfl rfl
     (by norm_num [simps, simps_aux, vec_sum, mat_square, mat_sub, mean_row])⟩

/- =====================================================================
   Claim C4: constructor validation of the coefficient matrix.
   ===================================================================== -/

/-- C4: construction succeeds exactly when the column count of the
(possibly vector-promoted) coefficients equals `basis.n_basis`; on success
the instance holds that basis and those coefficients, every row has length
`n_basis` for rectangular input, a vector is promoted to a one-row matrix,
and a mismatched column count fails with the source's `ValueError`. -/
theorem claim4_construction (basis : BasisSystem) (c : CoefInput) :
    ((∃ fd, mk_fdatabasis basis c = .ok fd)
      ↔ shape1 (atleast_2d c) = basis.n_basis)
    ∧ (∀ fd, mk_fdatabasis basis c = .ok fd →
        shape1 fd.coefficients = basis.n_basis
        ∧ fd.basis = basis ∧ fd.coefficients = atleast_2d c)
    ∧ (∀ fd, mk_fdatabasis basis c = .ok fd →
        (∀ row ∈ atleast_2d c, row.length = shape1 (atleast_2d c)) →
        ∀ row ∈ fd.coefficients, row.length = basis.n_basis)
    ∧ (∀ v, atleast_2d (.vec v) = [v])
    ∧ (shape1 (atleast_2d c) ≠ basis.n_basis →
        mk_fdatabasis basis c
          = .error "The length or number of columns of coefficients has to be the same equal to the number of elements of the basis.") := by
  have hmk : ∀ fd, mk_fdatabasis basis c = .ok fd →
      fd = ⟨basis, atleast_2d c⟩ ∧ shape1 (atleast_2d c) = basis.n_basis := by
    intro fd hfd
    by_cases h : shape1 (atleast_2d c) = basis.n_basis
    · simp only [mk_fdatabasis, if_pos h, Except.ok.injEq] at hfd
      exact ⟨hfd.symm, h⟩
    · simp only [mk_fdatabasis, if_neg h] at hfd
      exact absurd hfd (by simp)
  refine ⟨⟨?_, ?_⟩, ?_, ?_, ?_, ?_⟩
  · rintro ⟨fd, hfd⟩
    exact (hmk fd hfd).2
  · intro h
    exact ⟨⟨basis, atleast_2d c⟩, by simp [mk_fdatabasis, h]⟩
  · intro fd hfd
    obtain ⟨rfl, h⟩ := hmk fd hfd
    exact ⟨h, rfl, rfl⟩
  · intro fd hfd hrect row hrow
    obtain ⟨rfl, h⟩ := hmk fd hfd
    rw [← h]
    exact hrect row hrow
  · intro v
    rfl
  · intro h
    simp [mk_fdatabasis, h]

/-- Witness for C4: a length-2 vector against a 2-basis system succeeds,
a one-column matrix against it fails with the `ValueError`. -/
theorem claim4_construction_witness :
    shape1 (atleast_2d (.vec [RVal.val 1, RVal.val 2]))
      = (⟨0, 2⟩ : BasisSystem).n_basis
    ∧ (∃ fd, mk_fdatabasis ⟨0, 2⟩ (.vec [RVal.val 1, RVal.val 2]) = .ok fd)
    ∧ shape1 (atleast_2d (.mat [[RVal.val 1]])) ≠ (⟨0, 2⟩ : BasisSystem).n_basis
    ∧ mk_fdatabasis ⟨0, 2⟩ (.mat [[RVal.val 1]])
        = .error "The length or number of columns of coefficients has to be the same equal to the number of elements of the basis." :=
  ⟨by decide,
   (claim4_construction ⟨0, 2⟩ (.vec [RVal.val 1, RVal.val 2])).1.mpr (by decide),
   by decide,
   (claim4_construction ⟨0, 2⟩ (.mat [[RVal.val 1]])).2.2.2.2 (by decide)⟩

/- =====================================================================
   Shared NaN-awareness lemmas for `equals`.
   ===================================================================== -/

/-- IEEE equality is reflexive away from NaN. -/
theorem ieee_eq_refl_of_not_nan (x : RVal) (h : x ≠ RVal.nan) :
    ieee_eq x x = true := by
  cases x with
  | nan => exact absurd rfl h
  | val q => simp [ieee_eq]

/-- Elementwise IEEE comparison of a NaN-free row with itself holds. -/
theorem row_ieee_refl (row : List RVal) (h : ∀ x ∈ row, x ≠ RVal.nan) :
    (row.zip row).all (fun q => ieee_eq q.1 q.2) = true := by
  induction row with
  | nil => rfl
  | cons x xs ih =>
      simp only [List.zip_cons_cons, List.all_cons, Bool.and_eq_true]
      exact ⟨ieee_eq_refl_of_not_nan x (h x (by simp)),
        ih (fun u hu => h u (List.mem_cons_of_mem _ hu))⟩

/-- Rowwise IEEE comparison of a NaN-free matrix with itself holds. -/
theorem zip_rows_refl (m : CoefMatrix)
    (h : ∀ row ∈ m, ∀ x ∈ row, x ≠ RVal.nan) :
    (m.zip m).all (fun p => p.1.length == p.2.length &&
      (p.1.zip p.2).all (fun q => ieee_eq q.1 q.2)) = true := by
  induction m with
  | nil => rfl
  | cons r rs ih =>
      simp only [List.zip_cons_cons, List.all_cons, Bool.and_eq_true]
      exact ⟨⟨by simp, row_ieee_refl r (h r (by simp))⟩,
        ih (fun row hrow => h row (List.mem_cons_of_mem _ hrow))⟩

/-- `np.array_equal` of a NaN-free coefficient matrix with itself holds. -/
theorem array_equal_refl_of_no_nan (m : CoefMatrix)
    (h : ∀ row ∈ m, ∀ x ∈ row, x ≠ RVal.nan) : array_equal m m = true := by
  rw [array_equal]
  simp [zip_rows_refl m h]

/-- A copy of an instance with NaN-free coefficients is `equals` to it. -/
theorem fd_equals_copy_of_no_nan (fd : FDataBasisQ)
    (h : ∀ row ∈ fd.coefficients, ∀ x ∈ row, x ≠ RVal.nan) :
    fd_equals (fd_copy fd) fd = true := by
  rw [fd_equals, fd_copy]
  simp [array_equal_refl_of_no_nan fd.coefficients h]

/- =====================================================================
   Claim C6: derivative over integer orders.
   ===================================================================== -/

/-- Counterexample to C6 as stated: on the instance with the single NaN
coefficient, `derivative(order=0)` returns the copy, but the copy is not
`equals` to the original, because `np.array_equal` compares NaN unequal to
itself. -/
theorem claim6_counterexample :
    derivative (fun b c _ => (b, c)) ⟨⟨0, 1⟩, [[RVal.nan]]⟩ 0
      = .ok (fd_copy ⟨⟨0, 1⟩, [[RVal.nan]]⟩)
    ∧ fd_equals (fd_copy ⟨⟨0, 1⟩, [[RVal.nan]]⟩) ⟨⟨0, 1⟩, [[RVal.nan]]⟩
        = false :=
  ⟨rfl, rfl⟩

/-- C6 amended: over integer orders, `derivative` fails exactly for
negative order; order 0 returns a copy carrying the same basis and the
same coefficient matrix, and that copy is `equals` to the original
whenever no coefficient is NaN; positive order delegates to the basis's
derivative-basis-and-coefficient-transform rule through the validating
constructor. -/
theorem claim6_derivative
    (rule : BasisSystem → CoefMatrix → ℤ → BasisSystem × CoefMatrix)
    (fd : FDataBasisQ) (order : ℤ) :
    (order < 0 → derivative rule fd order
        = .error "order only takes non-negative integer values.")
    ∧ (derivative rule fd 0 = .ok (fd_copy fd)
       ∧ (fd_copy fd).basis = fd.basis
       ∧ (fd_copy fd).coefficients = fd.coefficients)
    ∧ ((∀ row ∈ fd.coefficients, ∀ x ∈ row, x ≠ RVal.nan) →
        fd_equals (fd_copy fd) fd = true)
    ∧ (0 < order → derivative rule fd order
        = mk_fdatabasis (rule fd.basis fd.coefficients order).1
            (.mat (rule fd.basis fd.coefficients order).2)) := by
  refine ⟨?_, ⟨?_, rfl, rfl⟩, ?_, ?_⟩
  · intro h
    rw [derivative, if_pos h]
  · rw [derivative, if_neg (by norm_num), if_pos rfl]
  · exact fd_equals_copy_of_no_nan fd
  · intro h
    rw [derivative, if_neg (by omega), if_neg (by omega)]

/-- Witness for C6 on the NaN-free instance with coefficient matrix
`[[2]]`: order -1 fails, the order-0 copy is `equals` to the original, and
order 1 delegates to the rule. -/
theorem claim6_derivative_witness :
    derivative (fun b c _ => (b, c)) ⟨⟨0, 1⟩, [[RVal.val 2]]⟩ (-1)
      = .error "order only takes non-negative integer values."
    ∧ fd_equals (fd_copy ⟨⟨0, 1⟩, [[RVal.val 2]]⟩) ⟨⟨0, 1⟩, [[RVal.val 2]]⟩
        = true
    ∧ derivative (fun b c _ => (b, c)) ⟨⟨0, 1⟩, [[RVal.val 2]]⟩ 1
      = mk_fdatabasis ⟨0, 1⟩ (.mat [[RVal.val 2]]) :=
  ⟨(claim6_derivative (fun b c _ => (b, c)) ⟨⟨0, 1⟩, [[RVal.val 2]]⟩ (-1)).1
      (by norm_num),
   (claim6_derivative (fun b c _ => (b, c)) ⟨⟨0, 1⟩, [[RVal.val 2]]⟩ 0).2.2.1
      (by decide),
   (claim6_derivative (fun b c _ => (b, c)) ⟨⟨0, 1⟩, [[RVal.val 2]]⟩ 1).2.2.2
      (by norm_num)⟩

/- =====================================================================
   Claim C7: cross-basis addition and subtraction return the sentinel.
   ===================================================================== -/

/-- C7: between two instances, `+` and `-` with different bases return the
`NotImplemented` sentinel (no result, no direct raise, leaving the
reflected operation to be tried), and with identical bases delegate to the
basis's same-basis combination rule. -/
theorem claim7_cross_basis_sentinel
    (add_rule sub_rule : BasisSystem → CoefMatrix → CoefMatrix → BasisSystem × CoefMatrix)
    (a b : FDataBasisQ) :
    (a.basis ≠ b.basis →
      fd_add add_rule a b = .notHandled ∧ fd_sub sub_rule a b = .notHandled)
    ∧ (a.basis = b.basis →
      fd_add add_rule a b
        = .handled ⟨(add_rule a.basis a.coefficients b.coefficients).1,
                    (add_rule a.basis a.coefficients b.coefficients).2⟩
      ∧ fd_sub sub_rule a b
        = .handled ⟨(sub_rule a.basis a.coefficients b.coefficients).1,
                    (sub_rule a.basis a.coefficients b.coefficients).2⟩) := by
  constructor
  · intro h
    exact ⟨by rw [fd_add, if_pos h], by rw [fd_sub, if_pos h]⟩
  · intro h
    exact ⟨by rw [fd_add, if_neg (by simp [h])],
           by rw [fd_sub, if_neg (by simp [h])]⟩

/-- Witness for C7: differing bases (tags 0 and 1) give the sentinel for
both operators; the identical basis delegates to the rule. -/
theorem claim7_cross_basis_sentinel_witness :
    ((⟨⟨0, 1⟩, [[RVal.val 1]]⟩ : FDataBasisQ).basis
        ≠ (⟨⟨1, 1⟩, [[RVal.val 2]]⟩ : FDataBasisQ).basis)
    ∧ (fd_add (fun bb x y => (bb, x)) ⟨⟨0, 1⟩, [[RVal.val 1]]⟩
          ⟨⟨1, 1⟩, [[RVal.val 2]]⟩ = .notHandled
      ∧ fd_sub (fun bb x y => (bb, x)) ⟨⟨0, 1⟩, [[RVal.val 1]]⟩
          ⟨⟨1, 1⟩, [[RVal.val 2]]⟩ = .notHandled)
    ∧ fd_add (fun bb x y => (bb, x)) ⟨⟨0, 1⟩, [[RVal.val 1]]⟩
        ⟨⟨0, 1⟩, [[RVal.val 3]]⟩ = .handled ⟨⟨0, 1⟩, [[RVal.val 1]]⟩ :=
  ⟨by decide,
   (claim7_cross_basis_sentinel (fun bb x y => (bb, x)) (fun bb x y => (bb, x))
      ⟨⟨0, 1⟩, [[RVal.val 1]]⟩ ⟨⟨1, 1⟩, [[RVal.val 2]]⟩).1 (by decide),
   ((claim7_cross_basis_sentinel (fun bb x y => (bb, x)) (fun bb x y => (bb, x))
      ⟨⟨0, 1⟩, [[RVal.val 1]]⟩ ⟨⟨0, 1⟩, [[RVal.val 3]]⟩).2 rfl).1⟩

/- =====================================================================
   Claim C8: the `to_basis` fast path and round trip.
   ===================================================================== -/

/-- Counterexample to C8 as stated: on the instance with a NaN coefficient,
`to_basis` at the instance's own basis takes the fast path and returns the
copy, but the round trip is not `equals` to the original, because
`np.array_equal` compares NaN unequal to itself. -/
theorem claim8_counterexample :
    to_basis (fun f _ => f) ⟨⟨2, 2⟩, [[RVal.nan, RVal.val 1]]⟩ ⟨2, 2⟩
      = fd_copy ⟨⟨2, 2⟩, [[RVal.nan, RVal.val 1]]⟩
    ∧ fd_equals (fd_copy ⟨⟨2, 2⟩, [[RVal.nan, RVal.val 1]]⟩)
        ⟨⟨2, 2⟩, [[RVal.nan, RVal.val 1]]⟩ = false :=
  ⟨rfl, rfl⟩

/-- C8 amended: `to_basis` at a target basis equal to the current one takes
the fast path and returns a copy carrying the same basis and the same
coefficient matrix (no refit), the round trip being `equals` to the
original whenever no coefficient is NaN; a different target basis goes to
the discretize-and-refit path. -/
theorem claim8_to_basis (refit : FDataBasisQ → BasisSystem → FDataBasisQ)
    (fd : FDataBasisQ) :
    (to_basis refit fd fd.basis = fd_copy fd
      ∧ (fd_copy fd).basis = fd.basis
      ∧ (fd_copy fd).coefficients = fd.coefficients)
    ∧ ((∀ row ∈ fd.coefficients, ∀ x ∈ row, x ≠ RVal.nan) →
        fd_equals (to_basis refit fd fd.basis) fd = true)
    ∧ (∀ basis, basis ≠ fd.basis → to_basis refit fd basis = refit fd basis) := by
  have hfast : to_basis refit fd fd.basis = fd_copy fd := by
    rw [to_basis, if_pos rfl]
  refine ⟨⟨hfast, rfl, rfl⟩, ?_, ?_⟩
  · intro h
    rw [hfast]
    exact fd_equals_copy_of_no_nan fd h
  · intro basis hb
    rw [to_basis, if_neg hb]

/-- Witness for C8 on the NaN-free instance with coefficients `[[4]]` over
basis tag 3: the round trip is `equals`-equal, and target basis tag 4 goes
to the refit path. -/
theorem claim8_to_basis_witness :
    fd_equals (to_basis (fun f _ => f) ⟨⟨3, 1⟩, [[RVal.val 4]]⟩
        (⟨⟨3, 1⟩, [[RVal.val 4]]⟩ : FDataBasisQ).basis)
      ⟨⟨3, 1⟩, [[RVal.val 4]]⟩ = true
    ∧ to_basis (fun f _ => f) ⟨⟨3, 1⟩, [[RVal.val 4]]⟩ ⟨4, 1⟩
        = (fun (f : FDataBasisQ) (_ : BasisSystem) => f)
            ⟨⟨3, 1⟩, [[RVal.val 4]]⟩ ⟨4, 1⟩ :=
  ⟨(claim8_to_basis (fun f _ => f) ⟨⟨3, 1⟩, [[RVal.val 4]]⟩).2.1 (by decide),
   (claim8_to_basis (fun f _ => f) ⟨⟨3, 1⟩, [[RVal.val 4]]⟩).2.2 ⟨4, 1⟩
      (by decide)⟩

/- =====================================================================
   Claim C9: `isna` marks exactly the all-NaN rows.
   ===================================================================== -/

/-- Reading a mapped list at an in-range position maps the original entry. -/
theorem getD_map_lt {α β : Type} (f : α → β) (l : List α) (i : Nat)
    (d : α) (e : β) (h : i < l.length) :
    (l.map f).getD i e = f (l.getD i d) := by
  rw [List.getD_eq_getElem?_getD, List.getD_eq_getElem?_getD,
    List.getElem?_map, List.getElem?_eq_getElem h]
  simp

/-- The NaN test on one scalar as a proposition. -/
theorem isNaN_eq_true_iff (x : RVal) : RVal.isNaN x = true ↔ x = RVal.nan := by
  cases x <;> simp [RVal.isNaN]

/-- C9: `isna` returns exactly one boolean per sample; position `i` is true
precisely when every coefficient of row `i` is NaN, and any row containing
a non-NaN coefficient (in particular a partially NaN row) is reported as
not missing. -/
theorem claim9_isna (fd : FDataBasisQ) :
    (isna fd).length = fd.coefficients.length
    ∧ (∀ i, i < fd.coefficients.length →
        ((isna fd).getD i false = true ↔
          ∀ x ∈ fd.coefficients.getD i [], x = RVal.nan))
    ∧ (∀ i, i < fd.coefficients.length →
        (∃ x ∈ fd.coefficients.getD i [], x ≠ RVal.nan) →
        (isna fd).getD i false = false) := by
  refine ⟨by simp [isna], ?_, ?_⟩
  · intro i hi
    rw [isna, getD_map_lt (fun row => row.all RVal.isNaN)
      fd.coefficients i [] false hi]
    simp [List.all_eq_true, isNaN_eq_true_iff]
  · intro i hi hx
    obtain ⟨x, hxm, hxne⟩ := hx
    rw [isna, getD_map_lt (fun row => row.all RVal.isNaN)
      fd.coefficients i [] false hi]
    rw [List.all_eq_false]
    exact ⟨x, hxm, by simp [isNaN_eq_true_iff, hxne]⟩

/-- Witness for C9 on the instance with rows `[NaN, 1]` and `[NaN, NaN]`:
two booleans, the all-NaN row is missing, the partially NaN row is not. -/
theorem claim9_isna_witness :
    (isna ⟨⟨0, 2⟩, [[RVal.nan, RVal.val 1], [RVal.nan, RVal.nan]]⟩).length = 2
    ∧ ((isna ⟨⟨0, 2⟩, [[RVal.nan, RVal.val 1], [RVal.nan, RVal.nan]]⟩).getD 1 false
        = true ↔
        ∀ x ∈ (⟨⟨0, 2⟩, [[RVal.nan, RVal.val 1], [RVal.nan, RVal.nan]]⟩ :
          FDataBasisQ).coefficients.getD 1 [], x = RVal.nan)
    ∧ (isna ⟨⟨0, 2⟩, [[RVal.nan, RVal.val 1], [RVal.nan, RVal.nan]]⟩).getD 0 false
        = false :=
  ⟨(claim9_isna ⟨⟨0, 2⟩, [[RVal.nan, RVal.val 1], [RVal.nan, RVal.nan]]⟩).1,
   (claim9_isna ⟨⟨0, 2⟩, [[RVal.nan, RVal.val 1], [RVal.nan, RVal.nan]]⟩).2.1 1
      (by decide),
   (claim9_isna ⟨⟨0, 2⟩, [[RVal.nan, RVal.val 1], [RVal.nan, RVal.nan]]⟩).2.2 0
      (by decide) ⟨RVal.val 1, by decide, by decide⟩⟩
